import Mathlib

/-!
# vtextedit: selection model, find flags and block indentation

A shallow embedding of the parts of `src/editor/include/vtextedit/vtextedit.h`
that carry logic (`VTextEdit::Selection`, `VTextEdit::Selections`,
`VTextEdit::FindFlag`), together with the block indentation primitives that
`texteditutils.h` declares.

C++ `int` values are embedded as `Int`.  The embedded code only compares and
copies them (no arithmetic), so no wrap-around can occur and every statement
below holds in particular on the 32-bit range.
-/

namespace vte

/-! ## Qt helpers used by the header -/

/-- Qt's `qMin(a, b)`, which is `(a < b) ? a : b`. -/
def qMin (a b : Int) : Int := if a < b then a else b

/-- Qt's `qMax(a, b)`, which is `(a < b) ? b : a`. -/
def qMax (a b : Int) : Int := if a < b then b else a

/-! ## `VTextEdit::Selection` -/

/-- The class `VTextEdit::Selection`: two private `int` members, both
initialised to `0` by the defaulted constructor. -/
structure Selection where
  m_start : Int := 0
  m_end : Int := 0
  deriving DecidableEq, Repr

namespace Selection

/-- The constructor `Selection(int p_start, int p_end)`. -/
def mk2 (p_start p_end : Int) : Selection :=
  { m_start := qMin p_start p_end, m_end := qMax p_start p_end }

/-- The method `isValid()`: `m_start >= 0 && m_start < m_end`. -/
def isValid (s : Selection) : Bool :=
  decide (s.m_start ≥ 0) && decide (s.m_start < s.m_end)

/-- The accessor `start()`. -/
def start (s : Selection) : Int := s.m_start

/-- The accessor `end()` (`end` is reserved in Lean, hence the trailing underscore). -/
def end_ (s : Selection) : Int := s.m_end

/-- The method `clear()`: `m_start = m_end = 0`. -/
def clear (_s : Selection) : Selection :=
  { m_start := 0, m_end := 0 }

/-- The method `operator==`:
`p_other.m_start == m_start && p_other.m_end == m_end`. -/
def eq (s p_other : Selection) : Bool :=
  decide (p_other.m_start = s.m_start) && decide (p_other.m_end = s.m_end)

end Selection

/-! ## `VTextEdit::Selections` -/

/-- The class `VTextEdit::Selections`: main selection, overridden main
selection and the additional (block mode) selections. -/
structure Selections where
  m_selection : Selection := {}
  m_overriddenSelection : Selection := {}
  m_additionalSelections : List Selection := []
  deriving DecidableEq, Repr

namespace Selections

/-- The method `getSelection()`: the overridden selection when it is valid,
the main selection otherwise. -/
def getSelection (ss : Selections) : Selection :=
  if ss.m_overriddenSelection.isValid then
    ss.m_overriddenSelection
  else
    ss.m_selection

/-- The method `getAdditionalSelections()`. -/
def getAdditionalSelections (ss : Selections) : List Selection :=
  ss.m_additionalSelections

/-- Modelled from the spec: the body of `VTextEdit::setOverriddenSelection`
is not part of the header (only its declaration is).  Per the spec it
"constructs a `Selection` from the two offsets and installs it as the active
override; does not touch the native cursor or primary selection". -/
def setOverriddenSelection (ss : Selections) (p_start p_end : Int) : Selections :=
  { ss with m_overriddenSelection := Selection.mk2 p_start p_end }

/-- Modelled from the spec: the body of `VTextEdit::hasSelection` is not part
of the header (only its declaration is).  Per the spec `hasSelection()` is
"true iff `getSelection().isValid()`". -/
def hasSelection (ss : Selections) : Bool :=
  ss.getSelection.isValid

end Selections

/-! ## `VTextEdit::FindFlag` and `VTextEdit::FindFlags` -/

/-- The enum `VTextEdit::FindFlag`. -/
inductive FindFlag where
  | FindBackward
  | CaseSensitive
  | WholeWordOnly
  | RegularExpression
  | IncrementalSearch
  deriving DecidableEq, Repr

namespace FindFlag

/-- The enumerator values written in the header.  All of them are
non-negative, so the `int` bit pattern is embedded as a `Nat`. -/
def value : FindFlag → Nat
  | FindBackward => 0x1
  | CaseSensitive => 0x2
  | WholeWordOnly => 0x4
  | RegularExpression => 0x8
  | IncrementalSearch => 0x10

/-- The position of the bit a flag occupies (used in proofs only). -/
def bit : FindFlag → Nat
  | FindBackward => 0
  | CaseSensitive => 1
  | WholeWordOnly => 2
  | RegularExpression => 3
  | IncrementalSearch => 4

end FindFlag

/-- The type `VTextEdit::FindFlags`, declared by `Q_DECLARE_FLAGS` as
`QFlags<FindFlag>`: a wrapper around one integer holding the bit pattern. -/
abbrev FindFlags := Nat

namespace FindFlags

/-- Qt's `QFlags::operator|(Enum f)`: `i | f`. -/
def or (i : FindFlags) (f : FindFlag) : FindFlags := i ||| f.value

/-- Qt's `QFlags::testFlag(Enum f)`:
`(i & f) == f && (f != 0 || i == f)`. -/
def testFlag (i : FindFlags) (f : FindFlag) : Bool :=
  (i &&& f.value == f.value) && (f.value != 0 || i == f.value)

/-- The bitwise OR of a collection of flags, starting from the empty
`QFlags` value (`0`). -/
def ofList (l : List FindFlag) : FindFlags := l.foldl FindFlags.or 0

end FindFlags

/-! ## Block indentation (`TextEditUtils`) -/

namespace TextEditUtils

/-- Modelled from the spec: the body of `TextEditUtils::isEmptyBlock` is not
in the sources (only its declaration is).  Per the spec it is "true iff the
block's trimmed text length is zero".  A block is represented by the
characters of its text. -/
def isEmptyBlock (text : List Char) : Bool :=
  text.all Char.isWhitespace

/-- Modelled from the spec: the body of `TextEditUtils::indentBlock` is not in
the sources (only its declaration is).  Per the spec it "inserts one indent
unit (a tab character if `useTab`, else `spaces` space characters) at the
start of the block's text.  If `skipEmptyBlock` is true and the block is
empty, no-ops". -/
def indentBlock (text : List Char) (p_useTab : Bool) (p_spaces : Int)
    (p_skipEmptyBlock : Bool) : List Char :=
  if p_skipEmptyBlock && isEmptyBlock text then
    text
  else if p_useTab then
    '\t' :: text
  else
    List.replicate p_spaces.toNat ' ' ++ text

/-- Removes up to `n` leading space characters, stopping at the first
character that is not a space. -/
def removeLeadingSpaces : Nat → List Char → List Char
  | n + 1, c :: rest => if c = ' ' then removeLeadingSpaces n rest else c :: rest
  | _, text => text

/-- Modelled from the spec: the body of `TextEditUtils::unindentBlock` is not
in the sources (only its declaration is).  Per the spec it "removes one indent
unit from the block start: if the first character is a tab, remove exactly one
character; otherwise remove up to `spaces` leading space characters (fewer if
less whitespace is present)"; a block with no leading whitespace is left
unchanged. -/
def unindentBlock (text : List Char) (p_spaces : Int) : List Char :=
  match text with
  | [] => []
  | c :: rest =>
    if c = '\t' then rest else removeLeadingSpaces p_spaces.toNat (c :: rest)

/-- The leading whitespace of a block: its longest prefix of whitespace
characters. -/
def leadingWhitespace (text : List Char) : List Char :=
  text.takeWhile Char.isWhitespace

/-- Whether the leading whitespace of a block consists of space characters
only (no tab or other whitespace). -/
def leadingWhitespaceIsSpaces (text : List Char) : Bool :=
  (leadingWhitespace text).all (fun c => c == ' ')

end TextEditUtils

/-! ## Helper lemmas -/

theorem qMin_eq_min (a b : Int) : qMin a b = min a b := by
  unfold qMin
  split <;> omega

theorem qMax_eq_max (a b : Int) : qMax a b = max a b := by
  unfold qMax
  split <;> omega

theorem Selection.isValid_iff (s : Selection) :
    s.isValid = true ↔ 0 ≤ s.m_start ∧ s.m_start < s.m_end := by
  simp [Selection.isValid]

theorem Selection.isValid_clear (s : Selection) : s.clear.isValid = false := by
  simp [Selection.isValid, Selection.clear]

/-! ## Claims about the selection model -/

/-- C1: for every pair of integers `(a, b)` the selection built by
`Selection(a, b)` has `start() = min(a, b)` and `end() = max(a, b)`, hence
`start() <= end()`; for example `Selection(5, 2)` has start 2 and end 5. -/
theorem Selection.mk2_start_end (a b : Int) :
    (Selection.mk2 a b).start = min a b ∧
    (Selection.mk2 a b).end_ = max a b ∧
    (Selection.mk2 a b).start ≤ (Selection.mk2 a b).end_ ∧
    (Selection.mk2 5 2).start = 2 ∧ (Selection.mk2 5 2).end_ = 5 := by
  refine ⟨?_, ?_, ?_, by decide, by decide⟩
  · simp [Selection.mk2, Selection.start, qMin_eq_min]
  · simp [Selection.mk2, Selection.end_, qMax_eq_max]
  · simp only [Selection.mk2, Selection.start, Selection.end_, qMin_eq_min, qMax_eq_max]
    omega

/-- C2: for every state, `getSelection()` returns the overridden selection
when that one is valid (whatever the primary selection is) and the primary
selection otherwise; with primary `(0,5)` and override `(2,4)` the result is
`(2,4)`. -/
theorem Selections.getSelection_spec (ss : Selections) :
    (ss.m_overriddenSelection.isValid = true →
      ss.getSelection = ss.m_overriddenSelection) ∧
    (ss.m_overriddenSelection.isValid = false →
      ss.getSelection = ss.m_selection) ∧
    Selections.getSelection
      { m_selection := Selection.mk2 0 5, m_overriddenSelection := Selection.mk2 2 4 }
      = Selection.mk2 2 4 := by
  refine ⟨?_, ?_, by decide⟩
  · intro h
    simp [Selections.getSelection, h]
  · intro h
    simp [Selections.getSelection, h]

/-- C3: for every selection `s`, `s.isValid()` is true if and only if
`0 <= s.start()` and `s.start() < s.end()`. -/
theorem Selection.isValid_iff_start_end (s : Selection) :
    s.isValid = true ↔ 0 ≤ s.start ∧ s.start < s.end_ := by
  simp [Selection.isValid, Selection.start, Selection.end_]

/-- C4 (as stated, refuted): `Selection(-1, 3)` has `start() < end()` and yet
is not valid, because `isValid()` also requires `m_start >= 0`. -/
theorem Selection.mk2_isValid_iff_lt_counterexample :
    ¬ ((Selection.mk2 (-1) 3).isValid = true ↔
        (Selection.mk2 (-1) 3).start < (Selection.mk2 (-1) 3).end_) := by
  decide

/-- C4 (amended): for all `(a, b)` with `a >= 0` and `b >= 0`, the selection
built by `Selection(a, b)` is valid if and only if `start() < end()`;
`Selection(5, 2)` is valid and `Selection(3, 3)` is not. -/
theorem Selection.mk2_isValid_iff_lt (a b : Int) (ha : 0 ≤ a) (hb : 0 ≤ b) :
    ((Selection.mk2 a b).isValid = true ↔
        (Selection.mk2 a b).start < (Selection.mk2 a b).end_) ∧
    (Selection.mk2 5 2).isValid = true ∧ (Selection.mk2 3 3).isValid = false := by
  refine ⟨?_, by decide, by decide⟩
  simp only [Selection.isValid_iff, Selection.mk2, Selection.start, Selection.end_,
    qMin_eq_min, qMax_eq_max]
  constructor
  · intro h
    exact h.2
  · intro h
    exact ⟨by omega, h⟩

theorem Selection.mk2_isValid_iff_lt_witness :
    (0 : Int) ≤ 5 ∧ (0 : Int) ≤ 2 ∧
    (((Selection.mk2 5 2).isValid = true ↔
        (Selection.mk2 5 2).start < (Selection.mk2 5 2).end_) ∧
      (Selection.mk2 5 2).isValid = true ∧ (Selection.mk2 3 3).isValid = false) :=
  ⟨by decide, by decide, Selection.mk2_isValid_iff_lt 5 2 (by decide) (by decide)⟩

/-- C5: `Selection::clear()` sets `start = end = 0` for every prior value and
so yields an invalid selection; in every state, once the overridden selection
has been cleared that way, `getSelection()` returns the primary selection,
which is unchanged.  With primary `(0,5)` and override `(2,4)`, clearing the
override gives `(0,5)`. -/
theorem Selections.getSelection_after_clear (ss : Selections) :
    (∀ s : Selection, s.clear.start = 0 ∧ s.clear.end_ = 0 ∧ s.clear.isValid = false) ∧
    Selections.getSelection
      { ss with m_overriddenSelection := ss.m_overriddenSelection.clear }
      = ss.m_selection ∧
    Selections.getSelection
      { m_selection := Selection.mk2 0 5,
        m_overriddenSelection := (Selection.mk2 2 4).clear }
      = Selection.mk2 0 5 := by
  refine ⟨?_, ?_, by decide⟩
  · intro s
    simp [Selection.clear, Selection.start, Selection.end_, Selection.isValid]
  · simp [Selections.getSelection, Selection.isValid_clear]

/-- C6: building a selection does not depend on the order of the endpoints:
for every pair of integers `(a, b)`, `Selection(a, b) == Selection(b, a)`
under `operator==`, so `setOverriddenSelection(a, b)` and
`setOverriddenSelection(b, a)` install the same override. -/
theorem Selection.mk2_comm (a b : Int) :
    (Selection.mk2 a b).eq (Selection.mk2 b a) = true ∧
    ∀ ss : Selections,
      ss.setOverriddenSelection a b = ss.setOverriddenSelection b a := by
  have h : Selection.mk2 a b = Selection.mk2 b a := by
    simp only [Selection.mk2, qMin_eq_min, qMax_eq_max, min_comm a b, max_comm a b]
  refine ⟨?_, ?_⟩
  · rw [h]
    simp [Selection.eq]
  · intro ss
    simp [Selections.setOverriddenSelection, h]

/-- C9: in every state, `getSelection().isValid()` holds if and only if the
overridden selection is valid or the primary selection is valid; so
`hasSelection()` is false exactly when both are invalid. -/
theorem Selections.getSelection_isValid_iff (ss : Selections) :
    (ss.getSelection.isValid = true ↔
      (ss.m_overriddenSelection.isValid = true ∨ ss.m_selection.isValid = true)) ∧
    (ss.hasSelection = false ↔
      (ss.m_overriddenSelection.isValid = false ∧ ss.m_selection.isValid = false)) := by
  unfold Selections.hasSelection Selections.getSelection
  cases ho : ss.m_overriddenSelection.isValid <;>
    cases hp : ss.m_selection.isValid <;> simp [ho, hp]

/-- C10: an override built from a degenerate or negative range never takes
precedence: for all integers `a`, `b` with `a = b` or `min(a, b) < 0`, a state
whose overridden selection is `Selection(a, b)` has `getSelection()` equal to
the primary selection, for every primary selection. -/
theorem Selections.getSelection_degenerate_override (a b : Int)
    (h : a = b ∨ min a b < 0) (primary : Selection) (additional : List Selection) :
    Selections.getSelection
      { m_selection := primary,
        m_overriddenSelection := Selection.mk2 a b,
        m_additionalSelections := additional }
      = primary := by
  have hv : (Selection.mk2 a b).isValid = false := by
    rw [← Bool.not_eq_true, Selection.isValid_iff]
    simp only [Selection.mk2, qMin_eq_min, qMax_eq_max]
    omega
  simp [Selections.getSelection, hv]

theorem Selections.getSelection_degenerate_override_witness :
    ((3 : Int) = 3 ∨ min (3 : Int) 3 < 0) ∧
    Selections.getSelection
      { m_selection := Selection.mk2 0 5,
        m_overriddenSelection := Selection.mk2 3 3,
        m_additionalSelections := [] }
      = Selection.mk2 0 5 :=
  ⟨Or.inl rfl,
   Selections.getSelection_degenerate_override 3 3 (Or.inl rfl) (Selection.mk2 0 5) []⟩

/-! ## Find flags -/

theorem FindFlag.value_eq_two_pow (f : FindFlag) : f.value = 2 ^ f.bit := by
  cases f <;> rfl

theorem FindFlag.bit_injective (f g : FindFlag) (h : f.bit = g.bit) : f = g := by
  cases f <;> cases g <;> first | rfl | (exact absurd h (by decide))

theorem FindFlags.testFlag_eq_testBit (i : FindFlags) (f : FindFlag) :
    FindFlags.testFlag i f = i.testBit f.bit := by
  unfold FindFlags.testFlag
  rw [FindFlag.value_eq_two_pow, Nat.and_two_pow]
  have hpos : 0 < 2 ^ f.bit := Nat.pow_pos (by decide)
  have hne : (2 ^ f.bit != 0) = true := by
    simp only [bne_iff_ne, ne_eq]
    omega
  rw [hne, Bool.true_or, Bool.and_true]
  cases i.testBit f.bit
  · have h0 : (0 : Nat) ≠ 2 ^ f.bit := Nat.ne_of_lt hpos
    simpa using h0
  · simp

theorem FindFlags.testBit_foldl (l : List FindFlag) (acc : FindFlags) (k : Nat) :
    (l.foldl FindFlags.or acc).testBit k =
      (acc.testBit k || l.any (fun g => decide (g.bit = k))) := by
  induction l generalizing acc with
  | nil => simp
  | cons g rest ih =>
    simp only [List.foldl_cons, List.any_cons]
    rw [ih, FindFlags.or, Nat.testBit_or, FindFlag.value_eq_two_pow, Nat.testBit_two_pow,
      Bool.or_assoc]

theorem FindFlags.testFlag_ofList (l : List FindFlag) (f : FindFlag) :
    FindFlags.testFlag (FindFlags.ofList l) f = true ↔ f ∈ l := by
  rw [FindFlags.testFlag_eq_testBit, FindFlags.ofList, FindFlags.testBit_foldl]
  simp only [Nat.zero_testBit, Bool.false_or, List.any_eq_true, decide_eq_true_eq]
  constructor
  · rintro ⟨g, hg, hgf⟩
    rw [← FindFlag.bit_injective g f hgf]
    exact hg
  · intro hf
    exact ⟨f, hf, rfl⟩

/-- C7: `FindFlags` is an orthogonal bit set: each of the five `FindFlag`
values is a single bit, different flags have different values and a bitwise
AND of 0, and so the bitwise OR of a collection of flags determines the
collection as a set (a flag is set in the OR exactly when it is in the
collection). -/
theorem FindFlags.orthogonal :
    (∀ f : FindFlag, ∃ k : Nat, f.value = 2 ^ k) ∧
    (∀ f g : FindFlag, f ≠ g → f.value ≠ g.value) ∧
    (∀ f g : FindFlag, f ≠ g → f.value &&& g.value = 0) ∧
    (∀ (l : List FindFlag) (f : FindFlag),
      FindFlags.testFlag (FindFlags.ofList l) f = true ↔ f ∈ l) ∧
    (∀ l₁ l₂ : List FindFlag, FindFlags.ofList l₁ = FindFlags.ofList l₂ →
      ∀ f : FindFlag, f ∈ l₁ ↔ f ∈ l₂) := by
  refine ⟨?_, ?_, ?_, FindFlags.testFlag_ofList, ?_⟩
  · intro f
    exact ⟨f.bit, FindFlag.value_eq_two_pow f⟩
  · intro f g hfg
    cases f <;> cases g <;> first | (exact absurd rfl hfg) | decide
  · intro f g hfg
    cases f <;> cases g <;> first | (exact absurd rfl hfg) | decide
  · intro l₁ l₂ h f
    rw [← FindFlags.testFlag_ofList l₁ f, ← FindFlags.testFlag_ofList l₂ f, h]

/-! ## Block indentation -/

/-- C8: for every block whose leading whitespace consists of spaces only,
indenting it with `useTab = false`, `spaces = 4`, `skipEmptyBlock = false`
and then unindenting it with `spaces = 4` restores the original block text.
For such a block, inserting the four spaces at the very start of the text or
right after its leading spaces gives the same text, so the statement does not
depend on which of the two the phrase "start of the block's text" means. -/
theorem TextEditUtils.unindentBlock_indentBlock (text : List Char)
    (_h : TextEditUtils.leadingWhitespaceIsSpaces text = true) :
    TextEditUtils.unindentBlock (TextEditUtils.indentBlock text false 4 false) 4 = text := by
  have h4 : (4 : Int).toNat = 4 := rfl
  simp [TextEditUtils.indentBlock, TextEditUtils.unindentBlock, h4, List.replicate,
    TextEditUtils.removeLeadingSpaces]

theorem TextEditUtils.unindentBlock_indentBlock_witness :
    TextEditUtils.leadingWhitespaceIsSpaces [' ', ' ', 'x', '\t', 'y'] = true ∧
    TextEditUtils.unindentBlock
      (TextEditUtils.indentBlock [' ', ' ', 'x', '\t', 'y'] false 4 false) 4
      = [' ', ' ', 'x', '\t', 'y'] :=
  ⟨by decide, TextEditUtils.unindentBlock_indentBlock [' ', ' ', 'x', '\t', 'y'] (by decide)⟩

end vte
